import Mathlib

/-!
Shallow embedding of the interview-flow backend
(`backend/app/main.py`, `backend/app/repository.py`, `backend/app/models.py`)
of the `tcc-assistente-requisitos` repository, together with proofs of the
behavioural properties stated in its specification.

Conventions of the embedding:
* Python strings are Lean `String`s; all character-level computation goes
  through `String.data` (a `List Char`).
* Python `None` is `Option.none`; a fallible route handler that lets an
  exception escape (HTTP 500) returns `none` in the response position.
* Python dictionaries read from `questions.json` are association lists
  `List (String × String)`; the question graph built by
  `{node["id"]: node for node in QUESTIONS_LIST}` is a lookup function
  `String → Option QNode`.
* Python truthiness on optional strings (`if not x`, `a or b`) is modelled
  explicitly: `none` and `some ""` are falsy.
* The SQLite store written through `upsert_session` is a lookup function
  `String → Option InterviewSession`; `datetime.utcnow()` is an explicit
  `now : Nat` parameter.
-/

/-- Python `str.strip()` (whitespace only, as used throughout `main.py`). -/
def pyStrip (s : String) : String :=
  ⟨((s.data.dropWhile Char.isWhitespace).reverse.dropWhile Char.isWhitespace).reverse⟩

/-- Python `str.lower()` (the repository only ever lowers ASCII letters). -/
def pyLower (s : String) : String :=
  ⟨s.data.map Char.toLower⟩

/-- `s.strip().lower()`, the normalisation chain used in `interview_next`. -/
def pyNorm (s : String) : String :=
  pyLower (pyStrip s)

/-- `main.py` lines 136-139: a string whose `strip().lower()` form is `""`,
`"null"` or `"none"` is folded to `None`, in both the `current_id` and the
`answer` positions. -/
def foldNull (v : Option String) : Option String :=
  match v with
  | none => none
  | some s =>
    if pyNorm s = "" ∨ pyNorm s = "null" ∨ pyNorm s = "none" then none else some s

/-- `main.py` line 169: `ans_norm = (ans or "").strip().lower()` applied to the
null-folded answer; the engine's complete answer normalisation. -/
def normalize_answer (answer : Option String) : String :=
  pyNorm ((foldNull answer).getD "")

/-- Python `a or b` on optional strings (`None` and `""` are falsy). -/
def pyOrS (a b : Option String) : Option String :=
  match a with
  | some s => if s = "" then b else some s
  | none => b

/-- One record of `questions.json`: `{id, text, next?, branch?/branches?}`.
The `id` key is the graph key and is kept outside the node. -/
structure QNode where
  text : String
  branch : Option (List (String × String)) := none
  branches : Option (List (String × String)) := none
  next : Option String := none
deriving Repr, DecidableEq

/-- `main.py` line 173: `branch = curr.get("branch") or curr.get("branches")`
(an empty dict is falsy, so an empty `branch` falls through to `branches`). -/
def getBranch (curr : QNode) : Option (List (String × String)) :=
  match curr.branch with
  | some d => if d = [] then curr.branches else some d
  | none => curr.branches

/-- `main.py` lines 174-176: branch-table resolution. Performed only when a
branch dict exists and the normalised answer is truthy; the exact key is
tried first, then `"*"`, then `"default"`, chained with Python `or`. -/
def branchResolve (curr : QNode) (ansNorm : String) : Option String :=
  match getBranch curr with
  | some d =>
    if ansNorm = "" then none
    else pyOrS (pyOrS (d.lookup ansNorm) (d.lookup "*")) (d.lookup "default")
  | none => none

/-- `main.py` lines 168-184: the resolved next node id — branch table, then
the `next` fallback, then the forced `"fim"` sentinel. -/
def resolveNext (curr : QNode) (ansNorm : String) : String :=
  match pyOrS (branchResolve curr ansNorm) curr.next with
  | some s => if s = "" then "fim" else s
  | none => "fim"

/-- One entry of `SESSIONS[session_id]`: `{id, question, answer}`. -/
structure HistEntry where
  id : String
  question : String
  answer : String
deriving Repr, DecidableEq

/-- The `NextResponse` model of `main.py`. -/
structure NextResponse where
  message : String
  next_id : Option String
  done : Bool
deriving Repr, DecidableEq

/-- The snapshot dict built in the persistence block of `interview_next`:
`{"current_id": next_id, "done": done, "history": SESSIONS[session_id]}`. -/
structure Snapshot where
  current_id : String
  done : Bool
  history : List HistEntry
deriving Repr, DecidableEq

/-- `main.py` line 162. -/
def invalidStepMsg : String := "Passo inválido no fluxo de perguntas. Reinicie a entrevista."

/-- `main.py` line 190. -/
def misconfiguredMsg : String := "Fluxo mal configurado (próximo passo não encontrado)."

/-- `main.py` line 197. -/
def finishedMsg : String := "Entrevista finalizada!"

/-- `main.py` lines 118-215, `interview_next`, for one session: takes the
question graph, the session's in-memory history and the raw request fields;
returns the HTTP response (`none` when an exception escapes the handler, as
happens when the `"start"` node is missing and `first["text"]` is evaluated
on `None`), the updated in-memory history, and the snapshot passed to
`upsert_session` (`none` on the three return paths that precede the
persistence block). -/
def interview_next (g : String → Option QNode) (hist : List HistEntry)
    (current_id answer : Option String) :
    Option NextResponse × List HistEntry × Option Snapshot :=
  let cid := foldNull current_id
  let ans := foldNull answer
  let hist1 :=
    match ans, cid with
    | some a, some c =>
      match g c with
      | some qnode => hist ++ [{ id := c, question := qnode.text, answer := a }]
      | none => hist
    | _, _ => hist
  match cid with
  | none =>
    match g "start" with
    | some first =>
      (some { message := first.text, next_id := some "start", done := false }, hist1, none)
    | none => (none, hist1, none)
  | some c =>
    match g c with
    | none =>
      (some { message := invalidStepMsg, next_id := none, done := true }, hist1, none)
    | some curr =>
      let nid := resolveNext curr (normalize_answer answer)
      if nid = "fim" then
        (some { message := finishedMsg, next_id := some "fim", done := true }, hist1,
         some { current_id := nid, done := true, history := hist1 })
      else
        match g nid with
        | none =>
          (some { message := misconfiguredMsg, next_id := none, done := true }, hist1, none)
        | some nxt =>
          (some { message := nxt.text, next_id := some nid, done := false }, hist1,
           some { current_id := nid, done := false, history := hist1 })

/-- The `InterviewSession` row of `models.py` (timestamps as abstract `Nat`;
`answers_json` holds the engine's snapshot dict when present). -/
structure InterviewSession where
  session_id : String
  created_at : Nat
  updated_at : Nat
  answers_json : Option Snapshot
  briefing_md : Option String
deriving Repr, DecidableEq

/-- `repository.py` lines 7-26, `upsert_session`: insert a fresh row or
update `updated_at` unconditionally and `answers_json` / `briefing_md` only
when the corresponding argument is not `None`. -/
def upsert_session (db : String → Option InterviewSession) (now : Nat)
    (session_id : String) (answers_json : Option Snapshot)
    (briefing_md : Option String) : String → Option InterviewSession :=
  fun k =>
    if k = session_id then
      match db session_id with
      | none =>
        some { session_id := session_id, created_at := now, updated_at := now,
               answers_json := answers_json, briefing_md := briefing_md }
      | some obj =>
        some { obj with
               updated_at := now,
               answers_json :=
                 match answers_json with
                 | none => obj.answers_json
                 | some a => some a,
               briefing_md :=
                 match briefing_md with
                 | none => obj.briefing_md
                 | some b => some b }
    else db k

/-- The `NextRequest` model of `main.py`. -/
structure NextRequest where
  session_id : String
  current_id : Option String := none
  answer : Option String := none

/-- One `/interview/next` request against the full process state: the
in-memory `SESSIONS` table (absent key = `[]`, matching `setdefault`) and
the database. `persistOk = false` models a storage fault raised inside the
`try` block around `upsert_session`, which line 210-212 swallows. -/
def interview_next_request (g : String → Option QNode)
    (sessions : String → List HistEntry)
    (db : String → Option InterviewSession) (persistOk : Bool) (now : Nat)
    (req : NextRequest) :
    Option NextResponse × (String → List HistEntry) × (String → Option InterviewSession) :=
  let r := interview_next g (sessions req.session_id) req.current_id req.answer
  let sessions1 := fun k => if k = req.session_id then r.2.1 else sessions k
  let db1 :=
    match r.2.2 with
    | some snap => if persistOk then upsert_session db now req.session_id (some snap) none else db
    | none => db
  (r.1, sessions1, db1)

/-- The literal answer-line marker of `build_briefing_md`. -/
def ansMark : String := "- Resposta registrada: "

/-- The three lines emitted for history entry number `i` by the loop
`for i, item in enumerate(qa, 1)` of `build_briefing_md` (`main.py`
lines 255-263); question and answer are `.strip()`-ed there. -/
def entryLines (i : Nat) (e : HistEntry) : List String :=
  ["### " ++ Nat.repr i ++ ". " ++ pyStrip e.question,
   ansMark ++ pyStrip e.answer,
   ""]

/-- The full line list assembled by `build_briefing_md` (`main.py`
lines 241-273) before the final `"\n".join(lines)`. -/
def briefing_lines (session_id : String) (qa : List HistEntry) : List String :=
  (["# ATA da Entrevista de Levantamento de Requisitos",
    "",
    "Sessão registrada: `" ++ session_id ++ "`",
    "",
    "## 1. Informações gerais",
    "Aqui eu junto, de forma organizada, as respostas que foram dadas na entrevista inicial.",
    "",
    "## 2. Perguntas e respostas"]
   ++ (if qa = [] then ["_Nenhuma resposta foi registrada para esta sessão._"]
       else (List.enumFrom 1 qa).flatMap (fun p => entryLines p.1 p.2)))
   ++ ["## 3. Observações finais",
       "Esta ATA foi gerada automaticamente a partir dos dados coletados pelo protótipo de assistente virtual para apoio à Engenharia de Requisitos, desenvolvido como Trabalho de Conclusão de Curso.",
       "",
       "---",
       "Relatório montado a partir da entrevista realizada no sistema de apoio ao levantamento de requisitos."]

/-- Python `"\n".join` at the character-list level. -/
def nlJoin : List (List Char) → List Char
  | [] => []
  | [l] => l
  | l :: l2 :: ls => l ++ '\n' :: nlJoin (l2 :: ls)

/-- The rendered transcript document for a given history:
`"\n".join(lines)` over `briefing_lines`. -/
def render_transcript (session_id : String) (qa : List HistEntry) : String :=
  ⟨nlJoin ((briefing_lines session_id qa).map String.data)⟩

/-- `main.py` lines 230-239: the history used by `build_briefing_md` — the
persisted snapshot's history when present and non-empty (Python `if not qa`
treats both `None` and `[]` as absent), else the in-memory one. -/
def chooseQA (db : String → Option InterviewSession)
    (sessions : String → List HistEntry) (session_id : String) : List HistEntry :=
  match (db session_id).bind (fun o => o.answers_json.map Snapshot.history) with
  | some l => if l = [] then sessions session_id else l
  | none => sessions session_id

/-- `main.py` lines 221-275, `build_briefing_md`. -/
def build_briefing_md (db : String → Option InterviewSession)
    (sessions : String → List HistEntry) (session_id : String) : String :=
  render_transcript session_id (chooseQA db sessions session_id)

/-- `main.py` lines 459-474, the `/briefing` route: renders the document and
best-effort-saves it through `upsert_session(session_id, answers_json=None,
briefing_md=md)`; a storage fault (`persistOk = false`) is swallowed. -/
def make_briefing (db : String → Option InterviewSession)
    (sessions : String → List HistEntry) (now : Nat) (persistOk : Bool)
    (session_id : String) : String × (String → Option InterviewSession) :=
  let md := build_briefing_md db sessions session_id
  let db1 := if persistOk then upsert_session db now session_id none (some md) else db
  (md, db1)

/-- `pat` is literally the first `pat.length` characters of `l`. -/
def leadChars : List Char → List Char → Bool
  | [], _ => true
  | _ :: _, [] => false
  | p :: ps, c :: cs => p == c && leadChars ps cs

/-- Split a character list at every `'\n'` (the inverse reading of
`nlJoin`; always returns at least one, possibly empty, line). -/
def splitNl : List Char → List (List Char)
  | [] => [[]]
  | c :: cs =>
    if c = '\n' then [] :: splitNl cs
    else
      match splitNl cs with
      | l :: ls => (c :: l) :: ls
      | [] => [[c]]

/-- Read a question back from a rendered `"### n. <prompt>"` heading line:
drop the marker, the decimal ordinal and the `". "` separator. -/
def headingQ (l : List Char) : Option (List Char) :=
  if leadChars "### ".data l then
    some (((l.drop 4).dropWhile (fun c => c.isDigit)).drop 2)
  else none

/-- Read an answer back from a rendered `"- Resposta registrada: <answer>"`
line. -/
def answerA (l : List Char) : Option (List Char) :=
  if leadChars ansMark.data l then some (l.drop 23) else none

/-- Re-extract the ordered (prompt, answer) pairs from a rendered transcript
document: split into lines, collect the heading questions and the recorded
answers in order, and pair them up. -/
def extract_qa (doc : String) : List (String × String) :=
  let ls := splitNl doc.data
  ((ls.filterMap headingQ).zip (ls.filterMap answerA)).map
    (fun p => (⟨p.1⟩, ⟨p.2⟩))

/-- Concrete node: the end-to-end example graph's `start` node. -/
def exNodeStart : QNode :=
  { text := "Q1?", branches := some [("sim", "q2"), ("nao", "fim")] }

/-- Concrete node: the end-to-end example graph's `q2` node. -/
def exNodeQ2 : QNode := { text := "Q2?", next := some "fim" }

/-- The two-question example graph of the specification's end-to-end
scenario: `start --sim--> q2 --(next)--> fim`, `start --nao--> fim`. -/
def exGraph : String → Option QNode :=
  fun k => if k = "start" then some exNodeStart else if k = "q2" then some exNodeQ2 else none

/-- Concrete node `A` of the branch-precedence example:
`branches = {"sim": "B", "*": "C"}`, `fallback_next = "D"`. -/
def exNodeA : QNode :=
  { text := "A?", branches := some [("sim", "B"), ("*", "C")], next := some "D" }

/-- Concrete node with only `branches = {"sim": "B"}` and
`fallback_next = "D"` (no wildcard). -/
def exNodeOnlySim : QNode :=
  { text := "A?", branches := some [("sim", "B")], next := some "D" }

/-- A concrete two-entry history, as produced by the end-to-end scenario. -/
def exHist : List HistEntry :=
  [{ id := "start", question := "Q1?", answer := "sim" },
   { id := "q2", question := "Q2?", answer := "qualquer" }]

/-- A concrete persisted row holding recorded answers and no briefing. -/
def exRow : InterviewSession :=
  { session_id := "s1", created_at := 0, updated_at := 0,
    answers_json := some { current_id := "q2", done := false,
                           history := [{ id := "start", question := "Q1?", answer := "sim" }] },
    briefing_md := none }

/-- A one-row concrete database. -/
def exDb : String → Option InterviewSession :=
  fun k => if k = "s1" then some exRow else none

/-- Concrete node with `branches = {"sim": "B"}`, no wildcard and no
fallback `next`. -/
def exNodeNoFb : QNode := { text := "A?", branches := some [("sim", "B")] }

/-- The "invalid step" situation of `interview_next`: a present (non-folded)
`current_id` that is not a key of the question graph. -/
def invalidCase (g : String → Option QNode) (current_id : Option String) : Prop :=
  ∃ c, foldNull current_id = some c ∧ g c = none

/-- The "misconfigured flow" situation of `interview_next`: a known current
node whose resolved next id is neither `"fim"` nor a key of the graph. -/
def misconfigCase (g : String → Option QNode) (current_id answer : Option String) : Prop :=
  ∃ c curr, foldNull current_id = some c ∧ g c = some curr ∧
    resolveNext curr (normalize_answer answer) ≠ "fim" ∧
    g (resolveNext curr (normalize_answer answer)) = none

/-- If the null-folding keeps a value, it is exactly the raw request value. -/
theorem foldNull_eq_some {v : Option String} {a : String} (h : foldNull v = some a) :
    v = some a := by
  cases v with
  | none => simp [foldNull] at h
  | some s =>
    simp only [foldNull] at h
    split at h
    · exact absurd h (by simp)
    · exact h

/-- C1 (counterexample): the engine's answer normalisation does not map the
affirmative synonym `"yes"` to the canonical token `"sim"`; it merely trims
and lower-cases, leaving `"yes"` unchanged. -/
theorem claim_C1_counterexample :
    normalize_answer (some "yes") = "yes" ∧ ("yes" : String) ≠ "sim" := by
  decide

/-- C1 (amended): the normalisation applied by the engine folds any value
whose trimmed lower-cased form is `""`, `"null"` or `"none"` to absent
(normalising to the empty string), and otherwise only trims and lower-cases
the raw answer; in particular each affirmative and negative synonym maps to
its own trimmed lower-cased form, not to a canonical token. -/
theorem claim_C1_amended :
    (∀ s : String, (pyNorm s = "" ∨ pyNorm s = "null" ∨ pyNorm s = "none") →
        foldNull (some s) = none ∧ normalize_answer (some s) = "") ∧
    (∀ s : String, ¬(pyNorm s = "" ∨ pyNorm s = "null" ∨ pyNorm s = "none") →
        foldNull (some s) = some s ∧ normalize_answer (some s) = pyNorm s) ∧
    foldNull none = none ∧
    (normalize_answer (some "sim") = "sim" ∧ normalize_answer (some " SIM ") = "sim" ∧
     normalize_answer (some "s") = "s" ∧ normalize_answer (some "yes") = "yes" ∧
     normalize_answer (some "y") = "y" ∧ normalize_answer (some "true") = "true" ∧
     normalize_answer (some "verdadeiro") = "verdadeiro") ∧
    (normalize_answer (some "nao") = "nao" ∧ normalize_answer (some "não") = "não" ∧
     normalize_answer (some "n") = "n" ∧ normalize_answer (some "no") = "no" ∧
     normalize_answer (some "false") = "false" ∧ normalize_answer (some "falso") = "falso") := by
  refine ⟨?_, ?_, rfl, by decide, by decide⟩
  · intro s hs
    refine ⟨?_, ?_⟩
    · simp only [foldNull]
      exact if_pos hs
    · simp only [normalize_answer, foldNull]
      rw [if_pos hs]
      rfl
  · intro s hs
    refine ⟨?_, ?_⟩
    · simp only [foldNull]
      exact if_neg hs
    · simp only [normalize_answer, foldNull]
      rw [if_neg hs]
      rfl

/-- Witness for the amended C1 at concrete inputs. -/
theorem claim_C1_amended_witness :
    foldNull (some " NULL ") = none ∧ normalize_answer (some " NULL ") = "" ∧
    foldNull (some "talvez") = some "talvez" ∧ normalize_answer (some " Talvez ") = "talvez" := by
  refine ⟨(claim_C1_amended.1 " NULL " (by decide)).1,
          (claim_C1_amended.1 " NULL " (by decide)).2,
          (claim_C1_amended.2.1 "talvez" (by decide)).1,
          ((claim_C1_amended.2.1 " Talvez " (by decide)).2).trans (by decide)⟩

/-- C2: whenever the supplied `current_id` is absent (`None`, or folds to
absent), and the `"start"` node is defined, `interview_next` returns the
start node's prompt, `next_id = "start"` and `done = false`, whatever the
answer is. -/
theorem claim_C2 (g : String → Option QNode) (hist : List HistEntry)
    (current_id answer : Option String) (first : QNode)
    (habs : current_id = none ∨ ∃ s, current_id = some s ∧
      (pyNorm s = "" ∨ pyNorm s = "null" ∨ pyNorm s = "none"))
    (hstart : g "start" = some first) :
    (interview_next g hist current_id answer).1 =
      some { message := first.text, next_id := some "start", done := false } := by
  have hfold : foldNull current_id = none := by
    rcases habs with h | ⟨s, hv, hs⟩
    · rw [h]; rfl
    · rw [hv]; unfold foldNull; exact if_pos hs
  unfold interview_next
  rw [hfold, hstart]

/-- Witness for C2: a whitespace-padded `"NULL"` current id starts the
interview on the example graph. -/
theorem claim_C2_witness :
    (interview_next exGraph [] (some " NULL ") (some "whatever")).1 =
      some { message := "Q1?", next_id := some "start", done := false } :=
  claim_C2 exGraph [] (some " NULL ") (some "whatever") exNodeStart
    (Or.inr ⟨" NULL ", rfl, by decide⟩) rfl

/-- C7: the response and the in-memory history of `/interview/next` are
identical whether the snapshot persistence succeeds or a storage fault is
raised and swallowed — a two-run statement over the persistence outcome. -/
theorem claim_C7 (g : String → Option QNode) (sessions : String → List HistEntry)
    (db : String → Option InterviewSession) (now : Nat) (req : NextRequest) :
    (interview_next_request g sessions db true now req).1 =
      (interview_next_request g sessions db false now req).1 ∧
    (interview_next_request g sessions db true now req).2.1 =
      (interview_next_request g sessions db false now req).2.1 :=
  ⟨rfl, rfl⟩

/-- The in-memory history produced by `interview_next`, on every path:
appended once when both folded fields are present and the current node is
known, untouched otherwise. -/
theorem interview_next_hist (g : String → Option QNode) (hist : List HistEntry)
    (cid ans : Option String) :
    (interview_next g hist cid ans).2.1 =
      (match foldNull ans, foldNull cid with
       | some a, some c =>
         (match g c with
          | some qn => hist ++ [{ id := c, question := qn.text, answer := a }]
          | none => hist)
       | _, _ => hist) := by
  simp only [interview_next]
  rcases hc : foldNull cid with _ | c <;> rcases ha : foldNull ans with _ | a <;>
    simp only [hc, ha] <;>
    repeat first
      | rfl
      | (split <;> try rfl)

/-- C6: the session history is appended to exactly when the folded answer is
present and the folded `current_id` is a known node, in which case one entry
with the node's original prompt and the raw (unnormalised) answer goes at
the end; on every other call the history is left untouched, and it always
extends the previous history (nothing is removed or reordered). -/
theorem claim_C6 (g : String → Option QNode) (hist : List HistEntry)
    (current_id answer : Option String) :
    (∀ a c qn, foldNull answer = some a → foldNull current_id = some c → g c = some qn →
        answer = some a ∧
        (interview_next g hist current_id answer).2.1 =
          hist ++ [{ id := c, question := qn.text, answer := a }]) ∧
    (foldNull answer = none → (interview_next g hist current_id answer).2.1 = hist) ∧
    (foldNull current_id = none → (interview_next g hist current_id answer).2.1 = hist) ∧
    (∀ c, foldNull current_id = some c → g c = none →
        (interview_next g hist current_id answer).2.1 = hist) ∧
    (∃ t, (interview_next g hist current_id answer).2.1 = hist ++ t) := by
  have key := interview_next_hist g hist current_id answer
  refine ⟨?_, ?_, ?_, ?_, ?_⟩
  · intro a c qn hfa hfc hg
    refine ⟨foldNull_eq_some hfa, ?_⟩
    rw [key]
    simp only [hfa, hfc, hg]
  · intro hfa
    rw [key]
    simp only [hfa]
  · intro hfc
    rw [key]
    rcases foldNull answer <;> simp [hfc]
  · intro c hfc hg
    rw [key]
    rcases foldNull answer <;> simp [hfc, hg]
  · rw [key]
    rcases foldNull answer with _ | a <;> rcases foldNull current_id with _ | c
    · exact ⟨[], by simp⟩
    · exact ⟨[], by simp⟩
    · exact ⟨[], by simp⟩
    · rcases hg : g c with _ | qn
      · exact ⟨[], by simp [hg]⟩
      · exact ⟨[{ id := c, question := qn.text, answer := a }], by simp [hg]⟩

/-- Witness for C6: answering `" SIM "` at `start` appends exactly one entry
carrying the raw unnormalised answer; with no answer nothing is appended. -/
theorem claim_C6_witness :
    (interview_next exGraph [] (some "start") (some " SIM ")).2.1 =
      [{ id := "start", question := "Q1?", answer := " SIM " }] ∧
    (interview_next exGraph [] (some "start") none).2.1 = [] := by
  constructor
  · exact ((claim_C6 exGraph [] (some "start") (some " SIM ")).1 " SIM " "start" exNodeStart
      (by decide) (by decide) (by decide)).2
  · exact (claim_C6 exGraph [] (some "start") none).2.1 (by decide)

/-- C3: branch resolution precedence of `interview_next` — with a branch
table and a non-empty normalised answer, the exact key wins, then the
wildcard `"*"`, then `"default"`; with no branch resolution the node's
unconditional `next` pointer is used; with neither, the sentinel `"fim"`. -/
theorem claim_C3 (curr : QNode) (a : String) :
    (∀ d v, getBranch curr = some d → a ≠ "" → d.lookup a = some v → v ≠ "" →
        resolveNext curr a = v) ∧
    (∀ d v, getBranch curr = some d → a ≠ "" →
        (d.lookup a = none ∨ d.lookup a = some "") → d.lookup "*" = some v → v ≠ "" →
        resolveNext curr a = v) ∧
    (∀ d v, getBranch curr = some d → a ≠ "" →
        (d.lookup a = none ∨ d.lookup a = some "") →
        (d.lookup "*" = none ∨ d.lookup "*" = some "") →
        d.lookup "default" = some v → v ≠ "" → resolveNext curr a = v) ∧
    (∀ m, (branchResolve curr a = none ∨ branchResolve curr a = some "") →
        curr.next = some m → m ≠ "" → resolveNext curr a = m) ∧
    ((branchResolve curr a = none ∨ branchResolve curr a = some "") →
        (curr.next = none ∨ curr.next = some "") → resolveNext curr a = "fim") := by
  refine ⟨?_, ?_, ?_, ?_, ?_⟩
  · intro d v hd ha hl hv
    simp only [resolveNext, branchResolve, hd, if_neg ha, hl, pyOrS, if_neg hv]
  · intro d v hd ha hl hw hv
    rcases hl with hl | hl <;>
      simp only [resolveNext, branchResolve, hd, if_neg ha, hl, hw, pyOrS, if_neg hv,
        if_pos rfl, if_true, eq_self_iff_true]
  · intro d v hd ha hl hw hdef hv
    rcases hl with hl | hl <;> rcases hw with hw | hw <;>
      simp only [resolveNext, branchResolve, hd, if_neg ha, hl, hw, hdef, pyOrS,
        if_neg hv, if_pos rfl, if_true, eq_self_iff_true]
  · intro m hb hn hm
    rcases hb with hb | hb <;>
      simp only [resolveNext, hb, hn, pyOrS, if_neg hm, if_pos rfl, if_true, eq_self_iff_true]
  · intro hb hn
    rcases hb with hb | hb <;> rcases hn with hn | hn <;>
      simp only [resolveNext, hb, hn, pyOrS, if_pos rfl, if_true, eq_self_iff_true]

/-- Witness for C3: the specification's own branch-precedence examples,
evaluated on concrete nodes. -/
theorem claim_C3_witness :
    resolveNext exNodeA "sim" = "B" ∧ resolveNext exNodeA "talvez" = "C" ∧
    resolveNext exNodeOnlySim "nao" = "D" ∧ resolveNext exNodeNoFb "nao" = "fim" := by
  refine ⟨?_, ?_, ?_, ?_⟩
  · exact (claim_C3 exNodeA "sim").1 [("sim", "B"), ("*", "C")] "B"
      (by decide) (by decide) (by decide) (by decide)
  · exact (claim_C3 exNodeA "talvez").2.1 [("sim", "B"), ("*", "C")] "C"
      (by decide) (by decide) (Or.inl (by decide)) (by decide) (by decide)
  · exact (claim_C3 exNodeOnlySim "nao").2.2.2.1 "D"
      (Or.inl (by decide)) (by decide) (by decide)
  · exact (claim_C3 exNodeNoFb "nao").2.2.2.2 (Or.inl (by decide)) (Or.inl (by decide))

/-- C4: among the responses actually returned, `done = true` together with
`next_id = null` happens exactly for an unknown (non-absent) `current_id`
or a resolved next id that is neither `"fim"` nor a graph node, each with
its own message; every other response carries a non-null `next_id`. -/
theorem claim_C4 (g : String → Option QNode) (hist : List HistEntry)
    (current_id answer : Option String) (r : NextResponse)
    (hr : (interview_next g hist current_id answer).1 = some r) :
    ((r.done = true ∧ r.next_id = none) ↔
      (invalidCase g current_id ∨ misconfigCase g current_id answer)) ∧
    (invalidCase g current_id →
      r = { message := invalidStepMsg, next_id := none, done := true }) ∧
    (misconfigCase g current_id answer →
      r = { message := misconfiguredMsg, next_id := none, done := true }) ∧
    (¬ invalidCase g current_id → ¬ misconfigCase g current_id answer →
      ∃ nid, r.next_id = some nid) := by
  rcases hc : foldNull current_id with _ | c
  · rcases hs : g "start" with _ | first
    · simp only [interview_next, hc, hs] at hr
      exact absurd hr (by simp)
    · simp only [interview_next, hc, hs] at hr
      obtain rfl : r = _ := (Option.some.inj hr).symm
      simp [invalidCase, misconfigCase, hc]
  · rcases hg : g c with _ | curr
    · simp only [interview_next, hc, hg] at hr
      obtain rfl : r = _ := (Option.some.inj hr).symm
      simp [invalidCase, misconfigCase, hc, hg]
    · by_cases hf : resolveNext curr (normalize_answer answer) = "fim"
      · simp only [interview_next, hc, hg] at hr
        rw [if_pos hf] at hr
        obtain rfl : r = _ := (Option.some.inj hr).symm
        simp [invalidCase, misconfigCase, hc, hg, hf]
      · rcases hn : g (resolveNext curr (normalize_answer answer)) with _ | nxt
        · simp only [interview_next, hc, hg, hn] at hr
          rw [if_neg hf] at hr
          obtain rfl : r = _ := (Option.some.inj hr).symm
          simp [invalidCase, misconfigCase, hc, hg, hf, hn]
        · simp only [interview_next, hc, hg, hn] at hr
          rw [if_neg hf] at hr
          obtain rfl : r = _ := (Option.some.inj hr).symm
          simp [invalidCase, misconfigCase, hc, hg, hf, hn]

/-- Witness for C4: on the example graph, an unknown current id produces
the terminal invalid-step response with `done = true`, `next_id = null`. -/
theorem claim_C4_witness :
    ({ message := invalidStepMsg, next_id := none, done := true } : NextResponse).done = true ∧
    ({ message := invalidStepMsg, next_id := none, done := true } : NextResponse).next_id = none := by
  have h := claim_C4 exGraph [] (some "zzz") none
    { message := invalidStepMsg, next_id := none, done := true } (by decide)
  exact h.1.mpr (Or.inl ⟨"zzz", by decide, by decide⟩)

/-- C5: when the resolved next id is the sentinel `"fim"`, the engine
returns the finished message with `next_id = "fim"` (not null) and
`done = true`; the result does not depend on the graph's value at the
sentinel (no lookup of the sentinel); and, the sentinel not being a graph
node, a subsequent call with `current_id = "fim"` yields the invalid-step
terminal response. -/
theorem claim_C5 (g : String → Option QNode) (hist : List HistEntry)
    (current_id answer : Option String) :
    (∀ c curr, foldNull current_id = some c → g c = some curr →
        resolveNext curr (normalize_answer answer) = "fim" →
        (interview_next g hist current_id answer).1 =
          some { message := finishedMsg, next_id := some "fim", done := true }) ∧
    (∀ g2 c curr, (∀ k, k ≠ "fim" → g k = g2 k) → foldNull current_id = some c →
        c ≠ "fim" → g c = some curr →
        resolveNext curr (normalize_answer answer) = "fim" →
        interview_next g hist current_id answer = interview_next g2 hist current_id answer) ∧
    (g "fim" = none → (interview_next g hist (some "fim") answer).1 =
        some { message := invalidStepMsg, next_id := none, done := true }) := by
  refine ⟨?_, ?_, ?_⟩
  · intro c curr hc hg hf
    simp only [interview_next, hc, hg]
    rw [if_pos hf]
  · intro g2 c curr hagree hc hcf hg hf
    have hg2 : g2 c = some curr := by rw [← hagree c hcf]; exact hg
    rcases ha : foldNull answer with _ | a <;>
      simp only [interview_next, hc, ha, hg, hg2] <;>
      rw [if_pos hf, if_pos hf]
  · intro hfim
    have hpf : foldNull (some "fim") = some "fim" := by decide
    simp only [interview_next, hpf, hfim]

/-- Witness for C5 at the example graph: finishing from `q2`, graph
independence at the sentinel, and the follow-up invalid step. -/
theorem claim_C5_witness :
    (interview_next exGraph [] (some "q2") (some "qualquer")).1 =
      some { message := finishedMsg, next_id := some "fim", done := true } ∧
    interview_next exGraph [] (some "q2") (some "qualquer") =
      interview_next (fun k => if k = "fim" then some exNodeQ2 else exGraph k) []
        (some "q2") (some "qualquer") ∧
    (interview_next exGraph [] (some "fim") (some "x")).1 =
      some { message := invalidStepMsg, next_id := none, done := true } := by
  refine ⟨?_, ?_, ?_⟩
  · exact (claim_C5 exGraph [] (some "q2") (some "qualquer")).1 "q2" exNodeQ2
      (by decide) (by decide) (by decide)
  · exact (claim_C5 exGraph [] (some "q2") (some "qualquer")).2.1
      (fun k => if k = "fim" then some exNodeQ2 else exGraph k) "q2" exNodeQ2
      (fun k hk => by simp [if_neg hk]) (by decide) (by decide) (by decide) (by decide)
  · exact (claim_C5 exGraph [] (some "x") (some "x")).2.2 (by decide)

/-- C8 (amended): the snapshot `{current_id: next_id, done, history}` is
upserted, keyed by the session id, exactly after the transitions that
resolve a next id from a known current node (normal advance and finish);
the session-start transition and the two terminal error responses return
before the persistence block and upsert nothing. -/
theorem claim_C8_amended (g : String → Option QNode) (hist : List HistEntry)
    (current_id answer : Option String) :
    (foldNull current_id = none → (interview_next g hist current_id answer).2.2 = none) ∧
    (∀ c, foldNull current_id = some c → g c = none →
        (interview_next g hist current_id answer).2.2 = none) ∧
    (∀ c curr, foldNull current_id = some c → g c = some curr →
        resolveNext curr (normalize_answer answer) = "fim" →
        (interview_next g hist current_id answer).2.2 =
          some { current_id := "fim", done := true,
                 history := (interview_next g hist current_id answer).2.1 }) ∧
    (∀ c curr, foldNull current_id = some c → g c = some curr →
        resolveNext curr (normalize_answer answer) ≠ "fim" →
        g (resolveNext curr (normalize_answer answer)) = none →
        (interview_next g hist current_id answer).2.2 = none) ∧
    (∀ c curr nxt, foldNull current_id = some c → g c = some curr →
        resolveNext curr (normalize_answer answer) ≠ "fim" →
        g (resolveNext curr (normalize_answer answer)) = some nxt →
        (interview_next g hist current_id answer).2.2 =
          some { current_id := resolveNext curr (normalize_answer answer), done := false,
                 history := (interview_next g hist current_id answer).2.1 }) ∧
    (∀ (sessions : String → List HistEntry) (db : String → Option InterviewSession)
        (now : Nat) (req : NextRequest) (snap : Snapshot),
        (interview_next g (sessions req.session_id) req.current_id req.answer).2.2 = some snap →
        (interview_next_request g sessions db true now req).2.2 =
          upsert_session db now req.session_id (some snap) none) := by
  refine ⟨?_, ?_, ?_, ?_, ?_, ?_⟩
  · intro hc
    simp only [interview_next, hc]
    rcases hs : g "start" with _ | f <;> simp only [hs]
  · intro c hc hg
    simp only [interview_next, hc, hg]
  · intro c curr hc hg hf
    rw [interview_next_hist]
    simp only [interview_next, hc, hg]
    rw [if_pos hf, hf]
  · intro c curr hc hg hf hn
    simp only [interview_next, hc, hg, hn]
    rw [if_neg hf]
  · intro c curr nxt hc hg hf hn
    rw [interview_next_hist]
    simp only [interview_next, hc, hg, hn]
    rw [if_neg hf]
  · intro sessions db now req snap hsnap
    simp only [interview_next_request, hsnap]
    rfl

/-- C8 (counterexample): the session-start transition returns a non-fatal
result (`next_id = "start"`) but upserts no snapshot, and the database is
untouched — refuting "upserts after every transition". -/
theorem claim_C8_counterexample :
    (interview_next exGraph [] none none).1 =
      some { message := "Q1?", next_id := some "start", done := false } ∧
    (interview_next exGraph [] none none).2.2 = none ∧
    (interview_next_request exGraph (fun _ => []) exDb true 7
      { session_id := "s1" }).2.2 = exDb := by
  refine ⟨by decide, by decide, rfl⟩

/-- Witness for the amended C8: the normal advance from `start` and the
finish from `q2` both upsert their snapshot; at request level the database
receives it keyed by the session id. -/
theorem claim_C8_amended_witness :
    (interview_next exGraph [] (some "start") (some "sim")).2.2 =
      some { current_id := "q2", done := false,
             history := [{ id := "start", question := "Q1?", answer := "sim" }] } ∧
    (interview_next exGraph [] (some "q2") (some "qualquer")).2.2 =
      some { current_id := "fim", done := true,
             history := [{ id := "q2", question := "Q2?", answer := "qualquer" }] } ∧
    (interview_next_request exGraph (fun _ => []) exDb true 7
        { session_id := "s2", current_id := some "start", answer := some "sim" }).2.2 =
      upsert_session exDb 7 "s2"
        (some { current_id := "q2", done := false,
                history := [{ id := "start", question := "Q1?", answer := "sim" }] }) none := by
  refine ⟨?_, ?_, ?_⟩
  · exact ((claim_C8_amended exGraph [] (some "start") (some "sim")).2.2.2.2.1 "start"
      exNodeStart exNodeQ2 (by decide) (by decide) (by decide) (by decide)).trans (by decide)
  · exact ((claim_C8_amended exGraph [] (some "q2") (some "qualquer")).2.2.1 "q2"
      exNodeQ2 (by decide) (by decide) (by decide)).trans (by decide)
  · exact (claim_C8_amended exGraph [] none none).2.2.2.2.2 (fun _ => []) exDb 7
      { session_id := "s2", current_id := some "start", answer := some "sim" }
      { current_id := "q2", done := false,
        history := [{ id := "start", question := "Q1?", answer := "sim" }] } (by decide)

/-- C10: upserting with `answers_json = None` (as the briefing route does)
touches `updated_at` and, when given, `briefing_md`, but leaves an existing
row's `answers_json` unchanged; symmetrically `briefing_md = None` leaves
the stored briefing unchanged — so generating a briefing never erases
recorded answers. -/
theorem claim_C10 (db : String → Option InterviewSession)
    (sessions : String → List HistEntry) (now : Nat) (sid : String)
    (obj : InterviewSession) (hobj : db sid = some obj) :
    (∀ bmd : Option String, ∃ o,
        upsert_session db now sid none bmd sid = some o ∧
        o.answers_json = obj.answers_json ∧ o.updated_at = now ∧
        (bmd = none → o.briefing_md = obj.briefing_md) ∧
        (∀ b, bmd = some b → o.briefing_md = some b)) ∧
    (∀ aj : Option Snapshot, ∃ o,
        upsert_session db now sid aj none sid = some o ∧
        o.briefing_md = obj.briefing_md ∧ o.updated_at = now ∧
        (aj = none → o.answers_json = obj.answers_json) ∧
        (∀ a, aj = some a → o.answers_json = some a)) ∧
    (∃ o, (make_briefing db sessions now true sid).2 sid = some o ∧
        o.answers_json = obj.answers_json) := by
  have hup : ∀ (aj : Option Snapshot) (bmd : Option String),
      upsert_session db now sid aj bmd sid =
        some { obj with
               updated_at := now,
               answers_json := Option.or aj obj.answers_json,
               briefing_md := Option.or bmd obj.briefing_md } := by
    intro aj bmd
    cases aj <;> cases bmd <;>
      simp [upsert_session, hobj, Option.or]
  refine ⟨?_, ?_, ?_⟩
  · intro bmd
    refine ⟨_, hup none bmd, rfl, rfl, ?_, ?_⟩
    · intro h; subst h; rfl
    · intro b h; subst h; rfl
  · intro aj
    refine ⟨_, hup aj none, rfl, rfl, ?_, ?_⟩
    · intro h; subst h; rfl
    · intro a h; subst h; rfl
  · exact ⟨_, hup none (some (build_briefing_md db sessions sid)), rfl⟩

/-- Witness for C10: saving a briefing over the concrete one-row database
keeps the recorded answers. -/
theorem claim_C10_witness :
    ∃ o, upsert_session exDb 5 "s1" none (some "MD") "s1" = some o ∧
      o.answers_json = exRow.answers_json ∧ o.updated_at = 5 ∧ o.briefing_md = some "MD" := by
  obtain ⟨o, h1, h2, h3, _, h5⟩ := (claim_C10 exDb (fun _ => []) 5 "s1" exRow rfl).1 (some "MD")
  exact ⟨o, h1, h2, h3, h5 "MD" rfl⟩

/-- Appending distributes over `String.data`. -/
theorem strData_append (s t : String) : (s ++ t).data = s.data ++ t.data := by
  cases s; cases t; rfl

/-- A pattern heads its own extension. -/
theorem leadChars_append_self (p r : List Char) : leadChars p (p ++ r) = true := by
  induction p with
  | nil => rfl
  | cons x xs ih => simp [leadChars, ih]

/-- A first-character mismatch refutes `leadChars`. -/
theorem leadChars_cons_ne {p c : Char} (ps cs : List Char) (h : p ≠ c) :
    leadChars (p :: ps) (c :: cs) = false := by
  simp [leadChars, h]

/-- `splitNl` always produces at least one line. -/
theorem splitNl_ne_nil (l : List Char) : splitNl l ≠ [] := by
  induction l with
  | nil => simp [splitNl]
  | cons c cs ih =>
    simp only [splitNl]
    split
    · simp
    · rcases hs : splitNl cs with _ | ⟨x, xs⟩
      · exact absurd hs ih
      · simp

/-- A newline-free list is a single line. -/
theorem splitNl_no_nl {l : List Char} (h : '\n' ∉ l) : splitNl l = [l] := by
  induction l with
  | nil => rfl
  | cons c cs ih =>
    simp only [List.mem_cons, not_or] at h
    simp only [splitNl, if_neg (Ne.symm h.1), ih h.2]

/-- Splitting after a newline-free first line peels it off. -/
theorem splitNl_append_nl {l : List Char} (rest : List Char) (h : '\n' ∉ l) :
    splitNl (l ++ '\n' :: rest) = l :: splitNl rest := by
  induction l with
  | nil => simp [splitNl]
  | cons c cs ih =>
    simp only [List.mem_cons, not_or] at h
    simp only [List.cons_append, splitNl, if_neg (Ne.symm h.1), List.append_eq]
    rw [ih h.2]

/-- `splitNl` inverts `nlJoin` on newline-free lines. -/
theorem splitNl_nlJoin {ls : List (List Char)} (hne : ls ≠ [])
    (h : ∀ l ∈ ls, '\n' ∉ l) : splitNl (nlJoin ls) = ls := by
  induction ls with
  | nil => exact absurd rfl hne
  | cons l ls ih =>
    rcases ls with _ | ⟨l2, ls2⟩
    · exact splitNl_no_nl (h l (by simp))
    · rw [show nlJoin (l :: l2 :: ls2) = l ++ '\n' :: nlJoin (l2 :: ls2) from rfl]
      rw [splitNl_append_nl _ (h l (by simp))]
      rw [ih (by simp) (fun x hx => h x (by simp [hx]))]

/-- Base-10 digit characters are decimal digits. -/
theorem digitChar_isDigit {m : Nat} (h : m < 10) : (Nat.digitChar m).isDigit = true := by
  interval_cases m <;> decide

/-- Every character `Nat.toDigitsCore` emits over base 10 is a digit. -/
theorem toDigitsCore_digits (fuel : Nat) :
    ∀ (n : Nat) (ds : List Char), (∀ c ∈ ds, c.isDigit = true) →
      ∀ c ∈ Nat.toDigitsCore 10 fuel n ds, c.isDigit = true := by
  induction fuel with
  | zero =>
    intro n ds hds
    rw [Nat.toDigitsCore.eq_def]
    exact hds
  | succ f ih =>
    intro n ds hds
    rw [Nat.toDigitsCore.eq_def]
    have hd : (Nat.digitChar (n % 10)).isDigit = true :=
      digitChar_isDigit (Nat.mod_lt _ (by omega))
    have hcons : ∀ c ∈ Nat.digitChar (n % 10) :: ds, c.isDigit = true := by
      intro c hc
      rcases List.mem_cons.mp hc with hc | hc
      · exact hc ▸ hd
      · exact hds c hc
    dsimp only
    split
    · exact hcons
    · exact ih _ _ hcons

/-- The decimal representation of a natural number is all digits. -/
theorem repr_digits (n : Nat) : ∀ c ∈ (Nat.repr n).data, c.isDigit = true := by
  intro c hc
  have : (Nat.repr n).data = Nat.toDigits 10 n := rfl
  rw [this, Nat.toDigits] at hc
  exact toDigitsCore_digits (n + 1) n [] (by simp) c hc

/-- A digit is not a newline. -/
theorem isDigit_ne_nl {c : Char} (h : c.isDigit = true) : c ≠ '\n' := by
  intro hc
  subst hc
  exact absurd h (by decide)

/-- `dropWhile` consumes a fully satisfying first block. -/
theorem dropWhile_all_append (p : Char → Bool) (a b : List Char)
    (h : ∀ c ∈ a, p c = true) : List.dropWhile p (a ++ b) = List.dropWhile p b := by
  induction a with
  | nil => rfl
  | cons c cs ih =>
    simp only [List.cons_append, List.dropWhile_cons, h c (by simp), if_true]
    exact ih (fun x hx => h x (by simp [hx]))

/-- A line starting with `'#'` is not an answer line. -/
theorem answerA_hash (l : List Char) : answerA ('#' :: l) = none := by
  have h : ¬ (leadChars ansMark.data ('#' :: l) = true) := by
    intro hc
    rw [show leadChars ansMark.data ('#' :: l) =
          leadChars ('-' :: " Resposta registrada: ".data) ('#' :: l) from rfl,
        leadChars_cons_ne _ _ (by decide)] at hc
    cases hc
  simp only [answerA]
  rw [if_neg h]

/-- A line starting with `'-'` is not a heading line. -/
theorem headingQ_dash (l : List Char) : headingQ ('-' :: l) = none := by
  have h : ¬ (leadChars "### ".data ('-' :: l) = true) := by
    intro hc
    rw [show leadChars "### ".data ('-' :: l) =
          leadChars ('#' :: "## ".data) ('-' :: l) from rfl,
        leadChars_cons_ne _ _ (by decide)] at hc
    cases hc
  simp only [headingQ]
  rw [if_neg h]

/-- A line starting with `'S'` is neither a heading nor an answer line. -/
theorem parse_S_none (l : List Char) :
    headingQ ('S' :: l) = none ∧ answerA ('S' :: l) = none := by
  constructor
  · have h : ¬ (leadChars "### ".data ('S' :: l) = true) := by
      intro hc
      rw [show leadChars "### ".data ('S' :: l) =
            leadChars ('#' :: "## ".data) ('S' :: l) from rfl,
          leadChars_cons_ne _ _ (by decide)] at hc
      cases hc
    simp only [headingQ]
    rw [if_neg h]
  · have h : ¬ (leadChars ansMark.data ('S' :: l) = true) := by
      intro hc
      rw [show leadChars ansMark.data ('S' :: l) =
            leadChars ('-' :: " Resposta registrada: ".data) ('S' :: l) from rfl,
          leadChars_cons_ne _ _ (by decide)] at hc
      cases hc
    simp only [answerA]
    rw [if_neg h]

/-- The rendered heading line of entry `i` with question `q`, as raw data. -/
theorem entryHeading_data (i : Nat) (q : String) :
    ("### " ++ Nat.repr i ++ ". " ++ q).data =
      '#' :: '#' :: '#' :: ' ' :: ((Nat.repr i).data ++ ('.' :: ' ' :: q.data)) := by
  simp only [strData_append, List.append_assoc,
    show "### ".data = ['#', '#', '#', ' '] from rfl]
  rfl

/-- `headingQ` recovers the question from a rendered heading line. -/
theorem headingQ_entry (i : Nat) (q : String) :
    headingQ (("### " ++ Nat.repr i ++ ". " ++ q).data) = some q.data := by
  rw [entryHeading_data]
  have hlead : leadChars "### ".data
      ('#' :: '#' :: '#' :: ' ' :: ((Nat.repr i).data ++ ('.' :: ' ' :: q.data))) = true :=
    leadChars_append_self ['#', '#', '#', ' '] ((Nat.repr i).data ++ ('.' :: ' ' :: q.data))
  simp only [headingQ]
  rw [if_pos hlead]
  rw [show List.drop 4
        ('#' :: '#' :: '#' :: ' ' :: ((Nat.repr i).data ++ ('.' :: ' ' :: q.data))) =
        (Nat.repr i).data ++ ('.' :: ' ' :: q.data) from rfl]
  rw [dropWhile_all_append _ _ _ (repr_digits i)]
  rfl

/-- An entry's heading line is not an answer line. -/
theorem answerA_entryHeading (i : Nat) (q : String) :
    answerA (("### " ++ Nat.repr i ++ ". " ++ q).data) = none := by
  rw [entryHeading_data]
  exact answerA_hash _

/-- `answerA` recovers the answer from a rendered answer line. -/
theorem answerA_entry (a : String) : answerA ((ansMark ++ a).data) = some a.data := by
  simp only [answerA, strData_append]
  rw [if_pos (leadChars_append_self ansMark.data a.data)]
  rw [show List.drop 23 (ansMark.data ++ a.data) = a.data from
        (by rw [show (23 : Nat) = ansMark.data.length from rfl, List.drop_left])]

/-- An entry's answer line is not a heading line. -/
theorem headingQ_ansLine (a : String) : headingQ ((ansMark ++ a).data) = none := by
  rw [strData_append, show ansMark.data = '-' :: " Resposta registrada: ".data from rfl,
      List.cons_append]
  exact headingQ_dash _

/-- The blank separator line matches neither extractor. -/
theorem parse_blank_none : headingQ ("" : String).data = none ∧ answerA ("" : String).data = none := by
  decide

/-- Extraction over the rendered entry block: the heading lines give back the
questions and the answer lines give back the answers, in order. -/
theorem entries_extract (qa : List HistEntry) :
    ∀ i : Nat,
      (∀ e ∈ qa, pyStrip e.question = e.question ∧ pyStrip e.answer = e.answer) →
      (((List.enumFrom i qa).flatMap (fun p => entryLines p.1 p.2)).map String.data).filterMap
          headingQ = qa.map (fun e => e.question.data) ∧
      (((List.enumFrom i qa).flatMap (fun p => entryLines p.1 p.2)).map String.data).filterMap
          answerA = qa.map (fun e => e.answer.data) := by
  induction qa with
  | nil =>
    intro i hyp
    simp
  | cons e qa ih =>
    intro i hyp
    have hq : pyStrip e.question = e.question := (hyp e (by simp)).1
    have ha : pyStrip e.answer = e.answer := (hyp e (by simp)).2
    have ih2 := ih (i + 1) (fun x hx => hyp x (by simp [hx]))
    have hE : entryLines i e =
        ["### " ++ Nat.repr i ++ ". " ++ e.question, ansMark ++ e.answer, ""] := by
      simp only [entryLines, hq, ha]
    constructor
    · simp only [List.enumFrom_cons, List.flatMap_cons, hE,
        List.map_cons, List.map_append, List.filterMap_append, List.map_nil,
        List.filterMap_cons, headingQ_entry, headingQ_ansLine, parse_blank_none.1,
        List.filterMap_nil, List.nil_append, List.cons_append]
      rw [ih2.1]
    · simp only [List.enumFrom_cons, List.flatMap_cons, hE,
        List.map_cons, List.map_append, List.filterMap_append, List.map_nil,
        List.filterMap_cons, answerA_entry, answerA_entryHeading, parse_blank_none.2,
        List.filterMap_nil, List.nil_append, List.cons_append]
      rw [ih2.2]

/-- No rendered entry line contains a newline, provided the entries do not. -/
theorem entries_no_nl (qa : List HistEntry) :
    ∀ i : Nat,
      (∀ e ∈ qa, Char.ofNat 10 ∉ e.question.data ∧ Char.ofNat 10 ∉ e.answer.data ∧
          pyStrip e.question = e.question ∧ pyStrip e.answer = e.answer) →
      ∀ l ∈ (List.enumFrom i qa).flatMap (fun p => entryLines p.1 p.2),
        Char.ofNat 10 ∉ l.data := by
  intro i hyp l hl
  induction qa generalizing i with
  | nil => simp at hl
  | cons e qa ih =>
    obtain ⟨hqn, han, hq, ha⟩ := hyp e (by simp)
    rw [List.enumFrom_cons, List.flatMap_cons] at hl
    rcases List.mem_append.mp hl with hl | hl
    · simp only [entryLines, hq, ha, List.mem_cons, List.not_mem_nil, or_false] at hl
      rcases hl with rfl | rfl | rfl
      · rw [entryHeading_data]
        intro hc
        simp only [List.mem_cons, List.mem_append] at hc
        rcases hc with hc | hc | hc | hc | hc | hc | hc | hc
        · exact absurd hc (by decide)
        · exact absurd hc (by decide)
        · exact absurd hc (by decide)
        · exact absurd hc (by decide)
        · exact isDigit_ne_nl (repr_digits i _ hc) (by decide)
        · exact absurd hc (by decide)
        · exact absurd hc (by decide)
        · exact hqn hc
      · rw [strData_append]
        intro hc
        rcases List.mem_append.mp hc with hc | hc
        · exact absurd hc (by decide)
        · exact han hc
      · intro hc
        exact absurd hc (by decide)
    · exact ih (i + 1) (fun x hx => hyp x (by simp [hx])) hl

/-- C9: rendering a plain-text history (no embedded newlines, no leading or
trailing whitespace in prompts and answers) and re-extracting the
(prompt, answer) pairs from the `"### n. <prompt>"` headings and the
`"- Resposta registrada: <answer>"` lines of the rendered document recovers
the original ordered pairs exactly. -/
theorem claim_C9 (sid : String) (h : List HistEntry)
    (hsid : '\n' ∉ sid.data)
    (hpl : ∀ e ∈ h, '\n' ∉ e.question.data ∧ '\n' ∉ e.answer.data ∧
        pyStrip e.question = e.question ∧ pyStrip e.answer = e.answer) :
    extract_qa (render_transcript sid h) = h.map (fun e => (e.question, e.answer)) := by
  have hf : ∀ e ∈ h, pyStrip e.question = e.question ∧ pyStrip e.answer = e.answer :=
    fun e he => ⟨(hpl e he).2.2.1, (hpl e he).2.2.2⟩
  have hsidd : ("Sessão registrada: `" ++ sid ++ "`").data =
      'S' :: ("essão registrada: `".data ++ (sid.data ++ "`".data)) := by
    simp only [strData_append, List.append_assoc,
      show "Sessão registrada: `".data = 'S' :: "essão registrada: `".data from rfl,
      List.cons_append]
  have hsidnl : '\n' ∉ ("Sessão registrada: `" ++ sid ++ "`").data := by
    rw [hsidd]
    intro hc
    rcases List.mem_cons.mp hc with hc | hc
    · exact absurd hc (by decide)
    · rcases List.mem_append.mp hc with hc | hc
      · exact absurd hc (by decide)
      · rcases List.mem_append.mp hc with hc | hc
        · exact hsid hc
        · exact absurd hc (by decide)
  by_cases hq0 : h = []
  · subst hq0
    have hbl : briefing_lines sid [] =
        ("# ATA da Entrevista de Levantamento de Requisitos" :: "" ::
          ("Sessão registrada: `" ++ sid ++ "`") :: "" :: "## 1. Informações gerais" ::
          "Aqui eu junto, de forma organizada, as respostas que foram dadas na entrevista inicial." ::
          "" :: "## 2. Perguntas e respostas" :: []) ++
        (("_Nenhuma resposta foi registrada para esta sessão._" :: []) ++
         ("## 3. Observações finais" ::
          "Esta ATA foi gerada automaticamente a partir dos dados coletados pelo protótipo de assistente virtual para apoio à Engenharia de Requisitos, desenvolvido como Trabalho de Conclusão de Curso." ::
          "" :: "---" ::
          "Relatório montado a partir da entrevista realizada no sistema de apoio ao levantamento de requisitos." :: [])) := by
      simp only [briefing_lines, List.append_assoc]
      simp
    have hne : (briefing_lines sid []).map String.data ≠ [] := by
      rw [hbl]
      simp
    have hnonl : ∀ l ∈ (briefing_lines sid []).map String.data, '\n' ∉ l := by
      intro l hl
      rcases List.mem_map.mp hl with ⟨line, hline, rfl⟩
      rw [hbl] at hline
      rcases List.mem_append.mp hline with hA | hMF
      · simp only [List.mem_cons, List.not_mem_nil, or_false] at hA
        rcases hA with rfl | rfl | rfl | rfl | rfl | rfl | rfl | rfl
        · decide
        · decide
        · exact hsidnl
        · decide
        · decide
        · decide
        · decide
        · decide
      · rcases List.mem_append.mp hMF with hM | hF
        · simp only [List.mem_cons, List.not_mem_nil, or_false] at hM
          subst hM
          decide
        · simp only [List.mem_cons, List.not_mem_nil, or_false] at hF
          rcases hF with rfl | rfl | rfl | rfl | rfl
          · decide
          · decide
          · decide
          · decide
          · decide
    have hHq : List.filterMap headingQ
        (("# ATA da Entrevista de Levantamento de Requisitos" :: "" ::
          ("Sessão registrada: `" ++ sid ++ "`") :: "" :: "## 1. Informações gerais" ::
          "Aqui eu junto, de forma organizada, as respostas que foram dadas na entrevista inicial." ::
          "" :: "## 2. Perguntas e respostas" :: ([] : List String)).map String.data) = [] := by
      rw [List.filterMap_eq_nil_iff]
      intro x hx
      simp only [List.map_cons, List.map_nil, List.mem_cons, List.not_mem_nil, or_false] at hx
      rcases hx with rfl | rfl | rfl | rfl | rfl | rfl | rfl | rfl
      · decide
      · decide
      · rw [hsidd]
        exact (parse_S_none _).1
      · decide
      · decide
      · decide
      · decide
      · decide
    have hHa : List.filterMap answerA
        (("# ATA da Entrevista de Levantamento de Requisitos" :: "" ::
          ("Sessão registrada: `" ++ sid ++ "`") :: "" :: "## 1. Informações gerais" ::
          "Aqui eu junto, de forma organizada, as respostas que foram dadas na entrevista inicial." ::
          "" :: "## 2. Perguntas e respostas" :: ([] : List String)).map String.data) = [] := by
      rw [List.filterMap_eq_nil_iff]
      intro x hx
      simp only [List.map_cons, List.map_nil, List.mem_cons, List.not_mem_nil, or_false] at hx
      rcases hx with rfl | rfl | rfl | rfl | rfl | rfl | rfl | rfl
      · decide
      · decide
      · rw [hsidd]
        exact (parse_S_none _).2
      · decide
      · decide
      · decide
      · decide
      · decide
    simp only [extract_qa, render_transcript]
    rw [splitNl_nlJoin hne hnonl]
    rw [hbl]
    simp only [List.map_append, List.filterMap_append, hHq, hHa, List.nil_append]
    decide
  · have hbl : briefing_lines sid h =
        ("# ATA da Entrevista de Levantamento de Requisitos" :: "" ::
          ("Sessão registrada: `" ++ sid ++ "`") :: "" :: "## 1. Informações gerais" ::
          "Aqui eu junto, de forma organizada, as respostas que foram dadas na entrevista inicial." ::
          "" :: "## 2. Perguntas e respostas" :: []) ++
        (((List.enumFrom 1 h).flatMap fun p => entryLines p.1 p.2) ++
         ("## 3. Observações finais" ::
          "Esta ATA foi gerada automaticamente a partir dos dados coletados pelo protótipo de assistente virtual para apoio à Engenharia de Requisitos, desenvolvido como Trabalho de Conclusão de Curso." ::
          "" :: "---" ::
          "Relatório montado a partir da entrevista realizada no sistema de apoio ao levantamento de requisitos." :: [])) := by
      simp only [briefing_lines, if_neg hq0, List.append_assoc]
    have hne : (briefing_lines sid h).map String.data ≠ [] := by
      rw [hbl]
      simp
    have hnonl : ∀ l ∈ (briefing_lines sid h).map String.data, '\n' ∉ l := by
      intro l hl
      rcases List.mem_map.mp hl with ⟨line, hline, rfl⟩
      rw [hbl] at hline
      rcases List.mem_append.mp hline with hA | hMF
      · simp only [List.mem_cons, List.not_mem_nil, or_false] at hA
        rcases hA with rfl | rfl | rfl | rfl | rfl | rfl | rfl | rfl
        · decide
        · decide
        · exact hsidnl
        · decide
        · decide
        · decide
        · decide
        · decide
      · rcases List.mem_append.mp hMF with hM | hF
        · exact entries_no_nl h 1 hpl line hM
        · simp only [List.mem_cons, List.not_mem_nil, or_false] at hF
          rcases hF with rfl | rfl | rfl | rfl | rfl
          · decide
          · decide
          · decide
          · decide
          · decide
    have hHq : List.filterMap headingQ
        (("# ATA da Entrevista de Levantamento de Requisitos" :: "" ::
          ("Sessão registrada: `" ++ sid ++ "`") :: "" :: "## 1. Informações gerais" ::
          "Aqui eu junto, de forma organizada, as respostas que foram dadas na entrevista inicial." ::
          "" :: "## 2. Perguntas e respostas" :: ([] : List String)).map String.data) = [] := by
      rw [List.filterMap_eq_nil_iff]
      intro x hx
      simp only [List.map_cons, List.map_nil, List.mem_cons, List.not_mem_nil, or_false] at hx
      rcases hx with rfl | rfl | rfl | rfl | rfl | rfl | rfl | rfl
      · decide
      · decide
      · rw [hsidd]
        exact (parse_S_none _).1
      · decide
      · decide
      · decide
      · decide
      · decide
    have hHa : List.filterMap answerA
        (("# ATA da Entrevista de Levantamento de Requisitos" :: "" ::
          ("Sessão registrada: `" ++ sid ++ "`") :: "" :: "## 1. Informações gerais" ::
          "Aqui eu junto, de forma organizada, as respostas que foram dadas na entrevista inicial." ::
          "" :: "## 2. Perguntas e respostas" :: ([] : List String)).map String.data) = [] := by
      rw [List.filterMap_eq_nil_iff]
      intro x hx
      simp only [List.map_cons, List.map_nil, List.mem_cons, List.not_mem_nil, or_false] at hx
      rcases hx with rfl | rfl | rfl | rfl | rfl | rfl | rfl | rfl
      · decide
      · decide
      · rw [hsidd]
        exact (parse_S_none _).2
      · decide
      · decide
      · decide
      · decide
      · decide
    have hFq : List.filterMap headingQ
        (("## 3. Observações finais" ::
          "Esta ATA foi gerada automaticamente a partir dos dados coletados pelo protótipo de assistente virtual para apoio à Engenharia de Requisitos, desenvolvido como Trabalho de Conclusão de Curso." ::
          "" :: "---" ::
          "Relatório montado a partir da entrevista realizada no sistema de apoio ao levantamento de requisitos." :: ([] : List String)).map String.data) = [] := by
      decide
    have hFa : List.filterMap answerA
        (("## 3. Observações finais" ::
          "Esta ATA foi gerada automaticamente a partir dos dados coletados pelo protótipo de assistente virtual para apoio à Engenharia de Requisitos, desenvolvido como Trabalho de Conclusão de Curso." ::
          "" :: "---" ::
          "Relatório montado a partir da entrevista realizada no sistema de apoio ao levantamento de requisitos." :: ([] : List String)).map String.data) = [] := by
      decide
    simp only [extract_qa, render_transcript]
    rw [splitNl_nlJoin hne hnonl]
    rw [hbl]
    simp only [List.map_append, List.filterMap_append, hHq, hHa, hFq, hFa,
      List.nil_append, List.append_nil]
    rw [(entries_extract h 1 hf).1, (entries_extract h 1 hf).2, List.zip_map']
    rw [List.map_map]
    rfl

/-- Witness for C9: the concrete end-to-end history round-trips through the
rendered document. -/
theorem claim_C9_witness :
    extract_qa (render_transcript "abc" exHist) =
      exHist.map (fun e => (e.question, e.answer)) :=
  claim_C9 "abc" exHist (by decide) (by decide)
